import Mathlib

/-!
Shallow embedding of the `search_engine_reverser` repository (Python) in Lean 4.

The embedding translates `src/search_reverser/adaptive.py` (the
`AdaptiveQueryStrategy` class), `src/search_reverser/analyzers.py` (the
`ResultAnalyzer` class) and `src/search_reverser/collectors.py`
(`DataCollector.perform_search`) into executable Lean definitions.

Conventions used throughout:
* Python `float` is modelled as `ℚ` (exact rational arithmetic); the
  constants `1.2`, `0.8`, `2.0`, `0.1`, `0.7`, `0.2` of the source appear
  verbatim as rational literals.
* Python `dict` is modelled as an association list in insertion order
  (`List (String × α)`); lookup of a missing key, which raises `KeyError`
  in Python, is modelled as `Option.none`.
* Python `set` of strings is modelled as a duplicate-free `List String`
  with membership semantics; insertion order is irrelevant to every
  property proved below.
* A raised exception is modelled either as a returned `Bool` flag
  (`analyze_response`, whose earlier mutations survive the raise) or by an
  `Option.none` result (`generate_next_queries`, whose caller sees no
  list).
* `random.*` calls are modelled by an explicit oracle (`Rng`) of integer
  and rational streams, one stream per call site; the unbounded retry
  loop of `_generate_domain_exploration_queries` consumes `Rng.fuel`, and
  exhausting the fuel (= the Python loop not terminating on that oracle)
  also yields `none`.
-/

namespace SearchReverser

/-! ### Python string primitives, structural so that the kernel can evaluate them -/

/-- ASCII lower-casing of one character, as Python `str.lower` acts on the
ASCII queries of this repository. -/
def lowerChar (c : Char) : Char :=
  if 65 ≤ c.toNat ∧ c.toNat ≤ 90 then Char.ofNat (c.toNat + 32) else c

/-- Python `str.lower`. -/
def lowerStr (s : String) : String :=
  String.mk (s.data.map lowerChar)

/-- Helper of `pySplit`: walk the characters, `acc` holds the current token
reversed. -/
def splitWsAux : List Char → List Char → List String
  | [], acc => if acc.isEmpty then [] else [String.mk acc.reverse]
  | c :: cs, acc =>
    if c.isWhitespace then
      if acc.isEmpty then splitWsAux cs []
      else String.mk acc.reverse :: splitWsAux cs []
    else splitWsAux cs (c :: acc)

/-- Python `str.split()` with no argument: split on runs of whitespace,
producing no empty tokens. -/
def pySplit (s : String) : List String :=
  splitWsAux s.data []

/-- Python `str.isalnum`: non-empty and every character alphanumeric. -/
def pyIsAlnum (s : String) : Bool :=
  !s.data.isEmpty && s.data.all Char.isAlphanum

/-- Boolean list-prefix test on characters. -/
def isPre : List Char → List Char → Bool
  | [], _ => true
  | _ :: _, [] => false
  | a :: as, b :: bs => a == b && isPre as bs

/-- Helper of `containsSub`: does `sub` occur starting at any suffix? -/
def hasSubAux (sub : List Char) : List Char → Bool
  | [] => isPre sub []
  | c :: cs => isPre sub (c :: cs) || hasSubAux sub cs

/-- Python substring test `sub in s`. -/
def containsSub (s sub : String) : Bool :=
  hasSubAux sub.data s.data

/-- Python `str.startswith`. -/
def startsWithStr (s pre : String) : Bool :=
  isPre pre.data s.data

/-! ### Set and dict primitives -/

/-- Insertion into a string set (`set.add`): no-op when already present. -/
def insertTerm (l : List String) (x : String) : List String :=
  if x ∈ l then l else l ++ [x]

/-- Set union (`set.update`): insert each element of `xs`. -/
def unionTerms (l : List String) (xs : List String) : List String :=
  xs.foldl insertTerm l

/-- Set difference (`set -= other`). -/
def diffTerms (l remove : List String) : List String :=
  l.filter (fun x => decide (x ∉ remove))

/-- Dict lookup in insertion order; `none` models a Python `KeyError`. -/
def lookupKey {α : Type} : List (String × α) → String → Option α
  | [], _ => none
  | (a, b) :: rest, k => if a = k then some b else lookupKey rest k

/-- Dict assignment `d[k] = v`: replace the first binding of `k`, appending
a fresh binding when the key is absent. -/
def setKey {α : Type} : List (String × α) → String → α → List (String × α)
  | [], k, v => [(k, v)]
  | (a, b) :: rest, k, v =>
    if a = k then (k, v) :: rest else (a, b) :: setKey rest k v

/-! ### The static domain catalog and query-pattern catalog (`adaptive.py`, `__init__`) -/

/-- The static domain catalog `self.domains`, verbatim from
`adaptive.py`, in declaration order. -/
def domains : List (String × List String) :=
  [ ("general_academic", ["education", "learning", "study", "course", "tutorial", "guide", "introduction"]),
    ("science", ["research", "experiment", "theory", "analysis", "methodology", "scientific"]),
    ("mathematics", ["math", "calculus", "algebra", "statistics", "probability", "equations"]),
    ("general_tech", ["technology", "digital", "computer", "software", "hardware", "system", "platform"]),
    ("programming", ["coding", "development", "software", "algorithm", "debugging", "implementation"]),
    ("languages", ["python", "javascript", "java", "cpp", "rust", "golang", "ruby", "php"]),
    ("web_dev", ["frontend", "backend", "fullstack", "web", "html", "css", "api", "rest"]),
    ("data_science", ["analytics", "machine learning", "data mining", "big data", "visualization", "prediction"]),
    ("business", ["management", "strategy", "planning", "organization", "leadership", "innovation"]),
    ("marketing", ["advertising", "branding", "marketing", "social media", "content", "seo"]),
    ("finance", ["investment", "trading", "economics", "financial", "accounting", "market"]),
    ("design", ["design", "creative", "art", "visual", "graphic", "typography", "layout"]),
    ("media", ["video", "audio", "multimedia", "animation", "production", "editing"]),
    ("writing", ["content", "documentation", "technical writing", "blogging", "copywriting"]),
    ("engineering", ["mechanical", "electrical", "civil", "chemical", "industrial", "engineering"]),
    ("healthcare", ["medical", "health", "clinical", "patient", "diagnosis", "treatment"]),
    ("manufacturing", ["production", "assembly", "quality", "automation", "industrial", "process"]) ]

/-- The keys of the static domain catalog, `self.domains.keys()`. -/
def catalogKeys : List String :=
  domains.map Prod.fst

/-- The keys of `self.query_patterns`, in declaration order. -/
def queryPatternNames : List String :=
  ["simple", "quoted", "and_combo", "or_combo", "beginner", "advanced",
   "learn", "with", "for", "course", "tutorial", "guide"]

/-- `random.choice(l)`: pick the element at the oracle index modulo the
length; `none` on an empty list (Python `IndexError`). -/
def randChoice {α : Type} (l : List α) (n : ℕ) : Option α :=
  l.get? (n % l.length)

/-- Application of the query-pattern lambda stored under `name` in
`self.query_patterns` to a seed term; `n` feeds the `random.choice` inside
the compound lambdas; `none` models the `KeyError` of looking up a name
that is not in the pattern dict. -/
def applyPattern (name term : String) (n : ℕ) : Option String :=
  if name = "simple" then some term
  else if name = "quoted" then some ("\"" ++ term ++ "\"")
  else if name = "and_combo" then
    (randChoice ["guide", "tutorial", "introduction"] n).map (fun c => term ++ " AND " ++ c)
  else if name = "or_combo" then
    (randChoice ["course", "training", "learning"] n).map (fun c => term ++ " OR " ++ c)
  else if name = "beginner" then some ("beginner " ++ term)
  else if name = "advanced" then some ("advanced " ++ term)
  else if name = "learn" then some ("learn " ++ term)
  else if name = "with" then
    (randChoice ["examples", "practice", "exercises"] n).map (fun c => term ++ " with " ++ c)
  else if name = "for" then
    (randChoice ["beginners", "professionals", "students"] n).map (fun c => term ++ " for " ++ c)
  else if name = "course" then some (term ++ " course")
  else if name = "tutorial" then some (term ++ " tutorial")
  else if name = "guide" then some ("complete " ++ term ++ " guide")
  else none

/-! ### The strategy state -/

/-- One value of the `query_success_rates` defaultdict:
`{"success": 0, "total": 0}`. -/
structure RateEntry where
  success : ℕ
  total : ℕ
deriving DecidableEq

/-- The `learned_patterns` record of `AdaptiveQueryStrategy.__init__`. -/
structure LearnedPatterns where
  effective_terms : List String
  ineffective_terms : List String
  optimal_query_length : ℚ
  best_performing_categories : List String
  successful_domains : List String
  successful_patterns : List String
deriving DecidableEq

/-- The mutable state of an `AdaptiveQueryStrategy` instance. -/
structure AdaptiveQueryStrategy where
  query_success_rates : List (String × RateEntry)
  learned_patterns : LearnedPatterns
  current_phase : String
  exploration_rounds : ℕ
  max_exploration_rounds : ℕ
  domain_weights : List (String × ℚ)
deriving DecidableEq

/-- The state produced by `AdaptiveQueryStrategy.__init__`. -/
def initStrategy : AdaptiveQueryStrategy :=
  { query_success_rates := []
    learned_patterns :=
      { effective_terms := []
        ineffective_terms := []
        optimal_query_length := 0
        best_performing_categories := []
        successful_domains := []
        successful_patterns := [] }
    current_phase := "domain_exploration"
    exploration_rounds := 0
    max_exploration_rounds := 3
    domain_weights := catalogKeys.map (fun d => (d, (1 : ℚ))) }

/-! ### Query classification helpers of `adaptive.py` -/

/-- `_identify_domain`: first domain (in catalog order) whose lower-cased
seed terms intersect the lower-cased tokens of the query, else
`"general"`. -/
def identifyDomain (query : String) : String :=
  let query_terms := pySplit (lowerStr query)
  match domains.find? (fun p => p.2.any (fun t => query_terms.contains (lowerStr t))) with
  | some p => p.1
  | none => "general"

/-- `_identify_query_pattern`: post-hoc labeling of an issued query. -/
def identifyQueryPattern (query : String) : String :=
  let q := lowerStr query
  if q.data.contains '"' then "phrase"
  else if containsSub q " and " then "compound"
  else if containsSub q " or " then "broad"
  else if startsWithStr q "advanced " then "specific"
  else "simple"

/-- `_categorize_query`: the category checks in dict declaration order,
first match wins. -/
def categorizeQuery (query : String) : String :=
  if (pySplit query).length > 2 then "exact"
  else if (pySplit query).length = 1 then "partial"
  else if query.data.any (fun c => !c.isAlphanum && !c.isWhitespace) then "fuzzy"
  else if containsSub query " AND " || containsSub query " OR " then "compound"
  else "general"

/-! ### `analyze_response` -/

/-- One raw search result as `analyze_response` reads it: a mandatory
`"title"` field and an optional `"score"` field (`result.get("score", 0)`
defaults to `0`). -/
structure SearchResult where
  title : String
  score : Option ℚ
deriving DecidableEq

/-- Per-result body of the success branch of `analyze_response`: the fold
accumulates the `successful_terms` set and the `successful_patterns`
list. -/
def successStep (query : String) (acc : List String × List String) (r : SearchResult) :
    List String × List String :=
  let title_terms := pySplit (lowerStr r.title)
  let query_terms := pySplit (lowerStr query)
  let matching_terms := query_terms.filter (fun t => decide (t ∈ title_terms))
  let terms1 := unionTerms acc.1 matching_terms
  if r.score.getD 0 > 0.7 then
    let terms2 := unionTerms terms1 query_terms
    let pat := identifyQueryPattern query
    (terms2, if pat ∈ acc.2 then acc.2 else acc.2 ++ [pat])
  else (terms1, acc.2)

/-- `query_success_rates[query_type]` update: total is always incremented,
success only on a successful query; the defaultdict supplies
`{"success": 0, "total": 0}` for a fresh category. -/
def updateRates (rates : List (String × RateEntry)) (query_type : String) (success : Bool) :
    List (String × RateEntry) :=
  let e := (lookupKey rates query_type).getD ⟨0, 0⟩
  setKey rates query_type ⟨e.success + (if success then 1 else 0), e.total + 1⟩

/-- `analyze_response(query, results)`. The returned flag is `true` when
the Python call raises `KeyError` at the domain-weight update (the
identified domain is not a key of `domain_weights`); the returned state
carries every mutation performed before that raise, exactly as the Python
object would. -/
def analyze_response (st : AdaptiveQueryStrategy) (query : String)
    (results : List SearchResult) : AdaptiveQueryStrategy × Bool :=
  let success := !results.isEmpty
  let query_type := categorizeQuery query
  let domain := identifyDomain query
  let rates := updateRates st.query_success_rates query_type success
  let lp := st.learned_patterns
  let lp :=
    if success then
      let lp := { lp with successful_domains := insertTerm lp.successful_domains domain }
      let acc := results.foldl (successStep query) ([], lp.successful_patterns)
      { lp with
          effective_terms := unionTerms lp.effective_terms acc.1
          successful_patterns := acc.2
          optimal_query_length :=
            lp.optimal_query_length * 0.8 + ((pySplit query).length : ℚ) * 0.2 }
    else
      let terms := pySplit query
      let clean_terms := terms.filter
        (fun t => pyIsAlnum t && decide (lowerStr t ∉ (["and", "or", "not"] : List String)))
      { lp with
          ineffective_terms :=
            diffTerms (unionTerms lp.ineffective_terms clean_terms) lp.effective_terms }
  let lp :=
    if success && !(lp.best_performing_categories.contains query_type) then
      { lp with best_performing_categories := lp.best_performing_categories ++ [query_type] }
    else lp
  match lookupKey st.domain_weights domain with
  | some w =>
    let w2 : ℚ := if success then min 2.0 (w * 1.2) else max 0.1 (w * 0.8)
    ({ st with
        query_success_rates := rates
        learned_patterns := lp
        domain_weights := setKey st.domain_weights domain w2 }, false)
  | none =>
    ({ st with
        query_success_rates := rates
        learned_patterns := lp }, true)

/-! ### `generate_next_queries` and the three phase-specific generators -/

/-- Randomness oracle for one `generate_next_queries` call: one stream per
`random.*` call site of `adaptive.py`, plus fuel bounding the unbounded
duplicate-retry loop of `_generate_domain_exploration_queries`. -/
structure Rng where
  coins : ℕ → ℚ
  fills : ℕ → ℕ
  termPick : ℕ → ℕ
  samplePick : ℕ → ℕ
  patternPick : ℕ → ℕ
  innerPick : ℕ → ℕ
  fuel : ℕ

/-- Insertion of one weighted domain into a list sorted by descending
weight, keeping earlier elements first among equal weights (Python
`sorted` is stable). -/
def insertDesc (p : String × ℚ) : List (String × ℚ) → List (String × ℚ)
  | [] => [p]
  | q :: rest => if p.2 ≥ q.2 then p :: q :: rest else q :: insertDesc p rest

/-- `sorted(self.domain_weights.items(), key=..., reverse=True)`. -/
def sortDesc : List (String × ℚ) → List (String × ℚ)
  | [] => []
  | p :: rest => insertDesc p (sortDesc rest)

/-- First selection loop of `_generate_domain_exploration_queries`: accept
each domain with probability its weight (coin `< weight`), stopping once 3
are accepted. -/
def weightedSelectAux (coins : ℕ → ℚ) : List (String × ℚ) → ℕ → List String → List String
  | [], _, acc => acc
  | (d, w) :: rest, i, acc =>
    if coins i < w then
      let acc2 := acc ++ [d]
      if acc2.length ≥ 3 then acc2 else weightedSelectAux coins rest (i + 1) acc2
    else weightedSelectAux coins rest (i + 1) acc

/-- The `while len(selected_domains) < 3` fill loop: draw uniformly from
the catalog keys, skip duplicates; `none` when the fuel runs out, the
model of the Python loop never terminating on this oracle. -/
def fillLoop (fills : ℕ → ℕ) : ℕ → List String → ℕ → Option (List String)
  | 0, sel, _ => if sel.length ≥ 3 then some sel else none
  | f + 1, sel, j =>
    if sel.length ≥ 3 then some sel
    else
      match randChoice catalogKeys (fills j) with
      | none => none
      | some d =>
        if d ∈ sel then fillLoop fills f sel (j + 1)
        else fillLoop fills f (sel ++ [d]) (j + 1)

/-- Query generation of the selected domains in
`_generate_domain_exploration_queries`; a failed catalog lookup is the
Python `KeyError`. -/
structure GenQuery where
  query : String
  type : String
  description : String
  domain : String
deriving DecidableEq

/-- Build one `domain_exploration` entry per selected domain. -/
def buildDomainQueries (termPick : ℕ → ℕ) : List String → ℕ → Option (List GenQuery)
  | [], _ => some []
  | d :: rest, i =>
    match lookupKey domains d with
    | none => none
    | some terms =>
      match randChoice terms (termPick i) with
      | none => none
      | some term =>
        match buildDomainQueries termPick rest (i + 1) with
        | none => none
        | some qs =>
          some ({ query := term, type := "domain_exploration",
                  description := "Testing " ++ d ++ " domain", domain := d } :: qs)

/-- `_generate_domain_exploration_queries`. -/
def domainExplorationQueries (st : AdaptiveQueryStrategy) (rng : Rng) :
    Option (List GenQuery) :=
  let weighted := sortDesc st.domain_weights
  let selected := weightedSelectAux rng.coins weighted 0 []
  match fillLoop rng.fills rng.fuel selected 0 with
  | none => none
  | some sel3 => buildDomainQueries rng.termPick sel3 0

/-- `random.sample(l, k)`: `k` draws without replacement; each draw takes
the oracle index modulo the remaining length. -/
def sampleK {α : Type} [DecidableEq α] (pick : ℕ → ℕ) : List α → ℕ → ℕ → List α
  | _, 0, _ => []
  | l, k + 1, i =>
    if l.isEmpty then []
    else
      let j := pick i % l.length
      match l.get? j with
      | none => []
      | some d => d :: sampleK pick (l.eraseIdx j) k (i + 1)

/-- Build one `pattern_exploration` entry per sampled domain. -/
def buildPatternQueries (rng : Rng) : List String → ℕ → Option (List GenQuery)
  | [], _ => some []
  | d :: rest, i =>
    match lookupKey domains d with
    | none => none
    | some terms =>
      match randChoice terms (rng.termPick i) with
      | none => none
      | some term =>
        match randChoice queryPatternNames (rng.patternPick i) with
        | none => none
        | some ptype =>
          match applyPattern ptype term (rng.innerPick i) with
          | none => none
          | some q =>
            match buildPatternQueries rng rest (i + 1) with
            | none => none
            | some qs =>
              some ({ query := q, type := ptype,
                      description := "Testing " ++ ptype ++ " pattern in " ++ d,
                      domain := d } :: qs)

/-- `_generate_pattern_exploration_queries`. -/
def patternExplorationQueries (st : AdaptiveQueryStrategy) (rng : Rng) :
    Option (List GenQuery) :=
  let successful_domains :=
    if st.learned_patterns.successful_domains.isEmpty then catalogKeys
    else st.learned_patterns.successful_domains
  let chosen := sampleK rng.samplePick successful_domains
    (min 2 successful_domains.length) 0
  buildPatternQueries rng chosen 0

/-- Build one `optimized` entry per sampled domain; the pattern is drawn
from `successful_patterns` (fallback: all pattern names), and looking its
name up in `query_patterns` can raise `KeyError` because
`_identify_query_pattern` emits names that are not pattern keys. -/
def buildOptimizedQueries (rng : Rng) (patterns : List String) :
    List String → ℕ → Option (List GenQuery)
  | [], _ => some []
  | d :: rest, i =>
    match randChoice patterns (rng.patternPick i) with
    | none => none
    | some ptype =>
      match lookupKey domains d with
      | none => none
      | some terms =>
        match randChoice terms (rng.termPick i) with
        | none => none
        | some term =>
          match applyPattern ptype term (rng.innerPick i) with
          | none => none
          | some q =>
            match buildOptimizedQueries rng patterns rest (i + 1) with
            | none => none
            | some qs =>
              some ({ query := q, type := "optimized",
                      description := "Optimized " ++ ptype ++ " query for " ++ d,
                      domain := d } :: qs)

/-- `_generate_optimized_queries`. -/
def optimizedQueries (st : AdaptiveQueryStrategy) (rng : Rng) :
    Option (List GenQuery) :=
  let successful_patterns :=
    if st.learned_patterns.successful_patterns.isEmpty then queryPatternNames
    else st.learned_patterns.successful_patterns
  let successful_domains :=
    if st.learned_patterns.successful_domains.isEmpty then catalogKeys
    else st.learned_patterns.successful_domains
  let chosen := sampleK rng.samplePick successful_domains
    (min 2 successful_domains.length) 0
  buildOptimizedQueries rng successful_patterns chosen 0

/-- `generate_next_queries(previous_results)`: phase-dependent generation
with the round counter and phase transitions of the source; a `none`
first component models the call raising, in which case no statement of
the body after the failed generator ran, so the state is unchanged. -/
def generate_next_queries (st : AdaptiveQueryStrategy) (rng : Rng) :
    Option (List GenQuery) × AdaptiveQueryStrategy :=
  if st.current_phase = "domain_exploration" then
    match domainExplorationQueries st rng with
    | none => (none, st)
    | some qs =>
      let r := st.exploration_rounds + 1
      let ph :=
        if r ≥ st.max_exploration_rounds then "pattern_exploration"
        else st.current_phase
      (some qs, { st with exploration_rounds := r, current_phase := ph })
  else if st.current_phase = "pattern_exploration" then
    match patternExplorationQueries st rng with
    | none => (none, st)
    | some qs =>
      let r := st.exploration_rounds + 1
      let ph :=
        if r ≥ st.max_exploration_rounds * 2 then "optimization"
        else st.current_phase
      (some qs, { st with exploration_rounds := r, current_phase := ph })
  else
    (optimizedQueries st rng, st)

/-! ### `analyzers.py`: the stored samples and the aggregate functions -/

/-- One stored sample, as `analyze_patterns` and `calculate_confidence`
read it: the precomputed `characteristics["matching_type"]` label and the
measured `timing`. The sample database is modelled by the list of the
dict's values in insertion order (`len(results)` and `results.values()`
are all the source reads). -/
structure Sample where
  matching_type : String
  timing : ℚ
deriving DecidableEq

/-- The record returned by `analyze_patterns`. -/
structure PatternStats where
  fuzzy_match_ratio : ℚ
  exact_match_ratio : ℚ
  average_response_time : ℚ
deriving DecidableEq

/-- `ResultAnalyzer.analyze_patterns(results)`. -/
def analyze_patterns (results : List Sample) : PatternStats :=
  if results.isEmpty then
    { fuzzy_match_ratio := 0, exact_match_ratio := 0, average_response_time := 0 }
  else
    let total_queries : ℚ := results.length
    let fuzzy_matches : ℚ :=
      (results.filter (fun r => decide (r.matching_type = "fuzzy"))).length
    { fuzzy_match_ratio :=
        if total_queries > 0 then fuzzy_matches / total_queries else 0
      exact_match_ratio :=
        if total_queries > 0 then (total_queries - fuzzy_matches) / total_queries else 0
      average_response_time :=
        if total_queries > 0 then (results.map Sample.timing).sum / total_queries else 0 }

/-- `ResultAnalyzer._check_result_consistency(results)`: the constant
`0.8` consistency stub for a non-empty database. -/
def checkResultConsistency (results : List Sample) : ℚ :=
  if results.isEmpty then 0 else 0.8

/-- `ResultAnalyzer.calculate_confidence(results)`. -/
def calculate_confidence (results : List Sample) : ℚ :=
  if results.isEmpty then 0
  else
    let patterns := analyze_patterns results
    let consistency := checkResultConsistency results
    (patterns.fuzzy_match_ratio + patterns.exact_match_ratio + consistency) / 3

/-! ### `collectors.py`: the HTTP boundary -/

/-- The outcome of the HTTP transaction inside
`DataCollector.perform_search`: either a decoded JSON result list from a
2xx response, or a raised `requests.RequestException` (connection error,
timeout, or the non-2xx status surfaced by `raise_for_status`), carrying
its message. -/
def transportOutcome := Except String (List SearchResult)

/-- `DataCollector.perform_search`: a successful transaction returns the
decoded body; a `RequestException` is caught, logged and turned into the
empty list. -/
def perform_search (outcome : Except String (List SearchResult)) : List SearchResult :=
  match outcome with
  | Except.ok results => results
  | Except.error _ => []

/-! ### Concrete states and oracles used by witnesses and counterexamples -/

/-- A fixed randomness oracle: all streams constantly `0`, generous fuel. -/
def rng0 : Rng :=
  { coins := fun _ => 0, fills := fun _ => 0, termPick := fun _ => 0,
    samplePick := fun _ => 0, patternPick := fun _ => 0, innerPick := fun _ => 0,
    fuel := 40 }

/-- A strategy state in the `pattern_exploration` phase whose
`successful_domains` holds `"general"` — the learned-pattern content left
behind by a successful query that matched no catalog domain (line 81 of
`adaptive.py` runs before the `KeyError` of the weight update). -/
def generalSuccessState : AdaptiveQueryStrategy :=
  { initStrategy with
      current_phase := "pattern_exploration"
      learned_patterns :=
        { initStrategy.learned_patterns with successful_domains := ["general"] } }

/-- A strategy state in the `optimization` phase whose
`successful_patterns` holds `"compound"` — the label `_identify_query_pattern`
assigns to a high-scoring `"math and calculus"` query; `"compound"` is not
a key of `query_patterns`. -/
def learnedCompoundState : AdaptiveQueryStrategy :=
  { initStrategy with
      current_phase := "optimization"
      learned_patterns :=
        { initStrategy.learned_patterns with
            successful_domains := ["mathematics"]
            successful_patterns := ["compound"] } }

/-- The state after the reachable two-call sequence
`analyze_response("math", [])` then
`analyze_response("math", [{"title": "math guide", "score": 1}])`
from a fresh strategy. -/
def overlapState : AdaptiveQueryStrategy :=
  (analyze_response (analyze_response initStrategy "math" []).fst "math"
    [{ title := "math guide", score := some 1 }]).fst

/-- A fresh strategy moved to the `pattern_exploration` phase, nothing
learned yet. -/
def patExplState : AdaptiveQueryStrategy :=
  { initStrategy with current_phase := "pattern_exploration" }

/-- The two queries the all-zero oracle produces from `patExplState`. -/
def patExplQueries : List GenQuery :=
  [{ query := "education", type := "simple",
     description := "Testing simple pattern in general_academic",
     domain := "general_academic" },
   { query := "research", type := "simple",
     description := "Testing simple pattern in science", domain := "science" }]

/-- A strategy state whose `effective_terms` already holds `"math"`. -/
def seededState : AdaptiveQueryStrategy :=
  { initStrategy with
      learned_patterns :=
        { initStrategy.learned_patterns with effective_terms := ["math"] } }

/-- The query-token/catalog overlap test underlying `_identify_domain`:
`true` exactly when some domain's lower-cased seed terms intersect the
lower-cased whitespace-split tokens of the query. -/
def domainMatch (query : String) : Bool :=
  domains.any (fun p => p.2.any (fun t => (pySplit (lowerStr query)).contains (lowerStr t)))

/-- Rank of a phase along the forward-only chain
`domain_exploration → pattern_exploration → optimization`. -/
def phaseRank (p : String) : ℕ :=
  if p = "domain_exploration" then 0
  else if p = "pattern_exploration" then 1
  else 2

/-- One orchestrated learning step: the state change of
`analyze_response` on one (query, results) pair. -/
def stepCall (st : AdaptiveQueryStrategy) (c : String × List SearchResult) :
    AdaptiveQueryStrategy :=
  (analyze_response st c.1 c.2).fst

/-- One generation step: the state change of `generate_next_queries`. -/
def genStep (st : AdaptiveQueryStrategy) (rng : Rng) : AdaptiveQueryStrategy :=
  (generate_next_queries st rng).snd

/-! ### Association-list lemmas -/

theorem lookupKey_setKey_self {α : Type} (l : List (String × α)) (k : String) (v : α) :
    lookupKey (setKey l k v) k = some v := by
  induction l with
  | nil => simp [setKey, lookupKey]
  | cons p rest ih =>
    obtain ⟨a, b⟩ := p
    by_cases h : a = k
    · subst h
      simp [setKey, lookupKey]
    · simp [setKey, h, lookupKey, ih]

theorem lookupKey_setKey_ne {α : Type} (l : List (String × α)) (k k' : String) (v : α)
    (h : k' ≠ k) : lookupKey (setKey l k v) k' = lookupKey l k' := by
  have hk : ¬ k = k' := fun e => h e.symm
  induction l with
  | nil => simp [setKey, lookupKey, hk]
  | cons p rest ih =>
    obtain ⟨a, b⟩ := p
    by_cases ha : a = k
    · subst ha
      simp [setKey, lookupKey, hk]
    · simp [setKey, ha, lookupKey, ih]

theorem mem_of_lookupKey {α : Type} {l : List (String × α)} {k : String} {v : α}
    (h : lookupKey l k = some v) : (k, v) ∈ l := by
  induction l with
  | nil => simp [lookupKey] at h
  | cons p rest ih =>
    obtain ⟨a, b⟩ := p
    simp only [lookupKey] at h
    by_cases ha : a = k
    · subst ha
      rw [if_pos rfl, Option.some.injEq] at h
      subst h
      exact List.mem_cons_self _ _
    · rw [if_neg ha] at h
      exact List.mem_cons_of_mem _ (ih h)

theorem mem_setKey {α : Type} {l : List (String × α)} {k : String} {v : α}
    {p : String × α} (h : p ∈ setKey l k v) : p = (k, v) ∨ p ∈ l := by
  induction l with
  | nil => simpa [setKey] using h
  | cons q rest ih =>
    obtain ⟨a, b⟩ := q
    by_cases ha : a = k
    · subst ha
      simp only [setKey, if_pos rfl] at h
      rcases List.mem_cons.mp h with h1 | h1
      · exact Or.inl h1
      · exact Or.inr (List.mem_cons_of_mem _ h1)
    · simp only [setKey, if_neg ha] at h
      rcases List.mem_cons.mp h with h1 | h1
      · exact Or.inr (h1 ▸ List.mem_cons_self _ _)
      · rcases ih h1 with h2 | h2
        · exact Or.inl h2
        · exact Or.inr (List.mem_cons_of_mem _ h2)

/-- The two filters of a Boolean predicate split the length of a list. -/
theorem length_filter_split {α : Type} (p : α → Bool) (l : List α) :
    (l.filter p).length + (l.filter (fun x => !p x)).length = l.length := by
  induction l with
  | nil => simp
  | cons a rest ih =>
    cases h : p a with
    | true =>
      simp only [List.filter_cons, h, if_pos, Bool.not_true, Bool.false_eq_true,
        if_false, List.length_cons, if_true]
      omega
    | false =>
      simp only [List.filter_cons, h, Bool.not_false, Bool.false_eq_true,
        if_false, List.length_cons, if_true]
      omega

/-! ### Shared facts about `analyze_patterns` -/

/-- For a non-empty database the two match ratios of `analyze_patterns`
sum to exactly `1`, and the exact ratio counts every sample whose
`matching_type` is not `"fuzzy"` — `"unknown"` included. -/
theorem analyzePatterns_ratios (db : List Sample) (h : db ≠ []) :
    (analyze_patterns db).fuzzy_match_ratio + (analyze_patterns db).exact_match_ratio = 1
    ∧ (analyze_patterns db).exact_match_ratio
        = ((db.filter (fun s => !decide (s.matching_type = "fuzzy"))).length : ℚ) / db.length := by
  have hne : db.isEmpty = false := by
    cases db with
    | nil => exact absurd rfl h
    | cons a l => rfl
  have hlen : 0 < db.length := by
    cases db with
    | nil => exact absurd rfl h
    | cons a l => exact Nat.succ_pos _
  have hlenQ : (0 : ℚ) < (db.length : ℚ) := by exact_mod_cast hlen
  have hlenQ0 : ((db.length : ℚ) : ℚ) ≠ 0 := ne_of_gt hlenQ
  have hsplit := length_filter_split (fun s => decide (s.matching_type = "fuzzy")) db
  have hsplitQ :
      ((db.filter (fun s => decide (s.matching_type = "fuzzy"))).length : ℚ)
        + ((db.filter (fun s => !decide (s.matching_type = "fuzzy"))).length : ℚ)
        = (db.length : ℚ) := by exact_mod_cast hsplit
  constructor
  · simp only [analyze_patterns, hne, Bool.false_eq_true, if_false, if_pos hlenQ, gt_iff_lt]
    rw [div_add_div_same]
    rw [show ((db.filter (fun s => decide (s.matching_type = "fuzzy"))).length : ℚ)
          + ((db.length : ℚ)
              - ((db.filter (fun s => decide (s.matching_type = "fuzzy"))).length : ℚ))
          = (db.length : ℚ) from by ring]
    exact div_self hlenQ0
  · simp only [analyze_patterns, hne, Bool.false_eq_true, if_false, if_pos hlenQ, gt_iff_lt]
    rw [show (db.length : ℚ)
          - ((db.filter (fun s => decide (s.matching_type = "fuzzy"))).length : ℚ)
          = ((db.filter (fun s => !decide (s.matching_type = "fuzzy"))).length : ℚ)
        from by linarith]

/-! ### Shared facts about `analyze_response` -/

/-- The domain-weight table after `analyze_response`: updated through
`setKey` at the identified domain when that domain has a weight, and left
unchanged when the lookup raises. -/
theorem analyzeResponse_domain_weights (st : AdaptiveQueryStrategy) (q : String)
    (rs : List SearchResult) :
    (analyze_response st q rs).fst.domain_weights
      = match lookupKey st.domain_weights (identifyDomain q) with
        | some w => setKey st.domain_weights (identifyDomain q)
            (if rs.isEmpty then max 0.1 (w * 0.8) else min 2.0 (w * 1.2))
        | none => st.domain_weights := by
  cases hlk : lookupKey st.domain_weights (identifyDomain q) with
  | none => simp [analyze_response, hlk]
  | some w =>
    cases rs with
    | nil => simp [analyze_response, hlk]
    | cons r rest => simp [analyze_response, hlk]

/-- The raised flag of `analyze_response` is exactly the failure of the
weight lookup at the identified domain. -/
theorem analyzeResponse_snd (st : AdaptiveQueryStrategy) (q : String)
    (rs : List SearchResult) :
    (analyze_response st q rs).snd
      = (lookupKey st.domain_weights (identifyDomain q)).isNone := by
  cases hlk : lookupKey st.domain_weights (identifyDomain q) with
  | none => simp [analyze_response, hlk]
  | some w => simp [analyze_response, hlk]

/-- The success-rate table after `analyze_response` is the `updateRates`
image of the old one, whatever the weight lookup does. -/
theorem analyzeResponse_rates (st : AdaptiveQueryStrategy) (q : String)
    (rs : List SearchResult) :
    (analyze_response st q rs).fst.query_success_rates
      = updateRates st.query_success_rates (categorizeQuery q) (!rs.isEmpty) := by
  cases hlk : lookupKey st.domain_weights (identifyDomain q) with
  | none => simp [analyze_response, hlk]
  | some w => simp [analyze_response, hlk]

/-- Reading back the updated category entry of `updateRates`. -/
theorem lookupKey_updateRates (rates : List (String × RateEntry)) (c : String)
    (succ : Bool) :
    lookupKey (updateRates rates c succ) c
      = some ⟨((lookupKey rates c).getD ⟨0, 0⟩).success + (if succ then 1 else 0),
              ((lookupKey rates c).getD ⟨0, 0⟩).total + 1⟩ := by
  unfold updateRates
  exact lookupKey_setKey_self _ _ _

/-- `_identify_domain` answers `"general"` exactly on the queries whose
tokens overlap no domain's seed terms. -/
theorem identifyDomain_eq_general_iff (q : String) :
    identifyDomain q = "general" ↔ domainMatch q = false := by
  unfold identifyDomain domainMatch
  cases hf : domains.find?
      (fun p => p.2.any (fun t => (pySplit (lowerStr q)).contains (lowerStr t))) with
  | none =>
    simp only [hf]
    constructor
    · intro _
      rw [List.any_eq_false]
      intro p hp
      have := List.find?_eq_none.mp hf p hp
      simpa using this
    · intro _
      trivial
  | some p =>
    have hpred := List.find?_some hf
    have hmem := List.mem_of_find?_eq_some hf
    simp only [hf]
    constructor
    · intro hgen
      have hkey : p.1 ∈ catalogKeys := List.mem_map_of_mem Prod.fst hmem
      rw [hgen] at hkey
      have : ¬ ("general" ∈ catalogKeys) := by decide
      exact absurd hkey this
    · intro hfalse
      have : domains.any
          (fun p => p.2.any (fun t => (pySplit (lowerStr q)).contains (lowerStr t))) = true :=
        List.any_eq_true.mpr ⟨p, hmem, hpred⟩
      rw [hfalse] at this
      exact absurd this (by simp)

/-! ### Claim theorems -/

/-- C7: the spec's concrete table for `_categorize_query` is wrong on two
of its five rows: the single-token query `"weird!!"` is categorized
`"partial"` (the `partial` rule fires before `fuzzy`), and the
three-token query `"a AND b"` is categorized `"exact"` (the `exact` rule
fires before `compound`). -/
theorem categorizeQuery_spec_examples_false :
    categorizeQuery "weird!!" = "partial" ∧ categorizeQuery "weird!!" ≠ "fuzzy"
    ∧ categorizeQuery "a AND b" = "exact" ∧ categorizeQuery "a AND b" ≠ "compound" := by
  decide

/-- C7 (amended): `_categorize_query` maps `"one two three"` to `"exact"`,
`"solo"` to `"partial"`, `"weird!!"` to `"partial"`, `"a AND b"` to
`"exact"`, and `""` to `"general"`. -/
theorem categorizeQuery_concrete_values :
    categorizeQuery "one two three" = "exact"
    ∧ categorizeQuery "solo" = "partial"
    ∧ categorizeQuery "weird!!" = "partial"
    ∧ categorizeQuery "a AND b" = "exact"
    ∧ categorizeQuery "" = "general" := by
  decide

/-- C8: `calculate_confidence` returns `0` on the empty sample database,
and on every non-empty database it returns the mean of
`fuzzy_match_ratio`, `exact_match_ratio` and the constant `0.8`
consistency term, a value inside `[0, 1]`. -/
theorem calculateConfidence_spec :
    calculate_confidence [] = 0
    ∧ ∀ db : List Sample, db ≠ [] →
        calculate_confidence db
          = ((analyze_patterns db).fuzzy_match_ratio
              + (analyze_patterns db).exact_match_ratio + 0.8) / 3
        ∧ 0 ≤ calculate_confidence db ∧ calculate_confidence db ≤ 1 := by
  constructor
  · rfl
  · intro db h
    have hne : db.isEmpty = false := by
      cases db with
      | nil => exact absurd rfl h
      | cons a l => rfl
    have hval : calculate_confidence db
        = ((analyze_patterns db).fuzzy_match_ratio
            + (analyze_patterns db).exact_match_ratio + 0.8) / 3 := by
      simp [calculate_confidence, checkResultConsistency, hne]
    refine ⟨hval, ?_, ?_⟩
    · rw [hval, (analyzePatterns_ratios db h).1]
      norm_num
    · rw [hval, (analyzePatterns_ratios db h).1]
      norm_num

/-- C8 witness: the one-sample database. -/
theorem calculateConfidence_spec_witness :
    ([⟨"fuzzy", 1⟩] : List Sample) ≠ []
    ∧ (calculate_confidence [⟨"fuzzy", 1⟩]
        = ((analyze_patterns [⟨"fuzzy", 1⟩]).fuzzy_match_ratio
            + (analyze_patterns [⟨"fuzzy", 1⟩]).exact_match_ratio + 0.8) / 3
        ∧ 0 ≤ calculate_confidence [⟨"fuzzy", 1⟩]
        ∧ calculate_confidence [⟨"fuzzy", 1⟩] ≤ 1) :=
  ⟨by simp, calculateConfidence_spec.2 [⟨"fuzzy", 1⟩] (by simp)⟩

/-- C10: for every non-empty database the two ratios of
`analyze_patterns` sum to exactly `1`, samples whose `matching_type` is
`"unknown"` being counted toward `exact_match_ratio` (the exact ratio is
the fraction of samples not labeled `"fuzzy"`), so `calculate_confidence`
is exactly `0.6` on every non-empty database. -/
theorem analyzePatterns_complementary (db : List Sample) (h : db ≠ []) :
    (analyze_patterns db).fuzzy_match_ratio + (analyze_patterns db).exact_match_ratio = 1
    ∧ (analyze_patterns db).exact_match_ratio
        = ((db.filter (fun s => !decide (s.matching_type = "fuzzy"))).length : ℚ) / db.length
    ∧ calculate_confidence db = 0.6 := by
  refine ⟨(analyzePatterns_ratios db h).1, (analyzePatterns_ratios db h).2, ?_⟩
  rw [(calculateConfidence_spec.2 db h).1, (analyzePatterns_ratios db h).1]
  norm_num

/-- C2: whenever the domain identified for the query has a weight,
`analyze_response` rewrites it to `min(2.0, w * 1.2)` on a non-empty
result list and to `max(0.1, w * 0.8)` on an empty one, and leaves every
other domain's weight untouched. -/
theorem analyzeResponse_weight_update (st : AdaptiveQueryStrategy) (query : String)
    (results : List SearchResult) (w : ℚ)
    (h : lookupKey st.domain_weights (identifyDomain query) = some w) :
    (results ≠ [] →
        lookupKey (analyze_response st query results).fst.domain_weights
          (identifyDomain query) = some (min 2.0 (w * 1.2)))
    ∧ (results = [] →
        lookupKey (analyze_response st query results).fst.domain_weights
          (identifyDomain query) = some (max 0.1 (w * 0.8)))
    ∧ ∀ d, d ≠ identifyDomain query →
        lookupKey (analyze_response st query results).fst.domain_weights d
          = lookupKey st.domain_weights d := by
  have hdw := analyzeResponse_domain_weights st query results
  rw [h] at hdw
  refine ⟨?_, ?_, ?_⟩
  · intro hne
    have hre : results.isEmpty = false := by
      cases results with
      | nil => exact absurd rfl hne
      | cons a l => rfl
    rw [hdw, hre]
    simp only [Bool.false_eq_true, if_false]
    exact lookupKey_setKey_self _ _ _
  · intro he
    subst he
    rw [hdw]
    simp only [List.isEmpty_nil, if_true]
    exact lookupKey_setKey_self _ _ _
  · intro d hd
    rw [hdw]
    exact lookupKey_setKey_ne _ _ _ _ hd

/-- C2 witness: on the fresh strategy and the query `"math"` (domain
`"mathematics"`, weight 1), an empty and a non-empty call produce the two
clamped updates, and the `"science"` weight is untouched. -/
theorem analyzeResponse_weight_update_witness :
    lookupKey (analyze_response initStrategy "math" []).fst.domain_weights
        (identifyDomain "math") = some (max 0.1 ((1 : ℚ) * 0.8))
    ∧ lookupKey (analyze_response initStrategy "math"
        [{ title := "math guide", score := some 1 }]).fst.domain_weights
        (identifyDomain "math") = some (min 2.0 ((1 : ℚ) * 1.2))
    ∧ lookupKey (analyze_response initStrategy "math" []).fst.domain_weights "science"
        = lookupKey initStrategy.domain_weights "science" :=
  ⟨(analyzeResponse_weight_update initStrategy "math" [] 1 rfl).2.1 rfl,
   (analyzeResponse_weight_update initStrategy "math"
      [{ title := "math guide", score := some 1 }] 1 rfl).1 (by simp),
   (analyzeResponse_weight_update initStrategy "math" [] 1 rfl).2.2 "science" (by decide)⟩

/-- C3: a query whose lower-cased tokens overlap no domain's seed terms is
identified as `"general"`, and `analyze_response` on it raises `KeyError`
at the weight update whenever `"general"` is not a key of
`domain_weights` (it never is: `__init__` keys the table by the catalog
and the raise precedes every assignment); conversely a call that
completes normally had a query matching some catalog domain. -/
theorem analyzeResponse_general_raises (st : AdaptiveQueryStrategy) (query : String)
    (results : List SearchResult)
    (hg : lookupKey st.domain_weights "general" = none) :
    (domainMatch query = false →
        identifyDomain query = "general" ∧ (analyze_response st query results).snd = true)
    ∧ ((analyze_response st query results).snd = false → domainMatch query = true) := by
  constructor
  · intro hm
    have hid : identifyDomain query = "general" :=
      (identifyDomain_eq_general_iff query).mpr hm
    refine ⟨hid, ?_⟩
    rw [analyzeResponse_snd, hid, hg]
    rfl
  · intro hok
    cases hq : domainMatch query with
    | true => rfl
    | false =>
      have hid : identifyDomain query = "general" :=
        (identifyDomain_eq_general_iff query).mpr hq
      rw [analyzeResponse_snd, hid, hg] at hok
      simp at hok

/-- C3 witness: the query `"zzz qqq"` matches no catalog domain; on the
fresh strategy the call raises. -/
theorem analyzeResponse_general_raises_witness :
    identifyDomain "zzz qqq" = "general"
    ∧ (analyze_response initStrategy "zzz qqq" []).snd = true :=
  (analyzeResponse_general_raises initStrategy "zzz qqq" [] (by decide)).1 (by decide)

/-- One `analyze_response` call keeps every weight inside `[0.1, 2.0]`. -/
theorem weights_range_step (st : AdaptiveQueryStrategy) (q : String)
    (rs : List SearchResult)
    (hInv : ∀ p ∈ st.domain_weights, (0.1 : ℚ) ≤ p.2 ∧ p.2 ≤ 2.0) :
    ∀ p ∈ (analyze_response st q rs).fst.domain_weights,
      (0.1 : ℚ) ≤ p.2 ∧ p.2 ≤ 2.0 := by
  rw [analyzeResponse_domain_weights]
  cases hlk : lookupKey st.domain_weights (identifyDomain q) with
  | none => exact hInv
  | some w =>
    obtain ⟨hw1, hw2⟩ := hInv _ (mem_of_lookupKey hlk)
    intro p hp
    rcases mem_setKey hp with h1 | h1
    · rw [h1]
      cases hre : rs.isEmpty with
      | true =>
        simp only [if_true]
        constructor
        · exact le_max_left _ _
        · exact max_le (by norm_num) (by linarith)
      | false =>
        simp only [Bool.false_eq_true, if_false]
        constructor
        · exact le_min (by norm_num) (by linarith)
        · exact min_le_left _ _
    · exact hInv _ h1

/-- A whole call sequence keeps every weight inside `[0.1, 2.0]`. -/
theorem weights_range_fold (calls : List (String × List SearchResult)) :
    ∀ st : AdaptiveQueryStrategy,
      (∀ p ∈ st.domain_weights, (0.1 : ℚ) ≤ p.2 ∧ p.2 ≤ 2.0) →
      ∀ p ∈ (calls.foldl stepCall st).domain_weights, (0.1 : ℚ) ≤ p.2 ∧ p.2 ≤ 2.0 := by
  induction calls with
  | nil => intro st h; exact h
  | cons c rest ih =>
    intro st h
    exact ih _ (weights_range_step st c.1 c.2 h)

/-- C4: starting from the fresh strategy (every weight `1.0`), after any
finite sequence of `analyze_response` calls every domain weight lies in
`[0.1, 2.0]`. -/
theorem weight_invariant (calls : List (String × List SearchResult)) (d : String) (w : ℚ)
    (h : lookupKey (calls.foldl stepCall initStrategy).domain_weights d = some w) :
    (0.1 : ℚ) ≤ w ∧ w ≤ 2.0 := by
  have hinit : ∀ p ∈ initStrategy.domain_weights, (0.1 : ℚ) ≤ p.2 ∧ p.2 ≤ 2.0 := by
    intro p hp
    rcases List.mem_map.mp hp with ⟨d', _, rfl⟩
    norm_num
  exact weights_range_fold calls initStrategy hinit (d, w) (mem_of_lookupKey h)

/-- C4 witness: the empty call sequence and the `"science"` weight. -/
theorem weight_invariant_witness :
    (0.1 : ℚ) ≤ 1 ∧ (1 : ℚ) ≤ 2.0 :=
  weight_invariant [] "science" 1 rfl

/-- C9: a failed HTTP transaction surfaces as the empty result list, and
`analyze_response` on that empty list increments the category's total
count, keeps its success count, and applies the clamped `× 0.8` decrease
to the identified domain's weight — never increasing it. -/
theorem networkFailure_flow (e : String) (st : AdaptiveQueryStrategy) (q : String) (w : ℚ)
    (hw : lookupKey st.domain_weights (identifyDomain q) = some w)
    (hrange : (0.1 : ℚ) ≤ w) :
    perform_search (Except.error e) = []
    ∧ ((lookupKey (analyze_response st q (perform_search (Except.error e))).fst.query_success_rates
          (categorizeQuery q)).getD ⟨0, 0⟩).total
        = ((lookupKey st.query_success_rates (categorizeQuery q)).getD ⟨0, 0⟩).total + 1
    ∧ ((lookupKey (analyze_response st q (perform_search (Except.error e))).fst.query_success_rates
          (categorizeQuery q)).getD ⟨0, 0⟩).success
        = ((lookupKey st.query_success_rates (categorizeQuery q)).getD ⟨0, 0⟩).success
    ∧ lookupKey (analyze_response st q (perform_search (Except.error e))).fst.domain_weights
        (identifyDomain q) = some (max 0.1 (w * 0.8))
    ∧ max 0.1 (w * 0.8) ≤ w := by
  have hps : perform_search (Except.error e) = [] := rfl
  rw [hps]
  have hrates := analyzeResponse_rates st q []
  have hdw := analyzeResponse_domain_weights st q []
  rw [hw] at hdw
  refine ⟨rfl, ?_, ?_, ?_, ?_⟩
  · rw [hrates]
    simp only [List.isEmpty_nil, Bool.not_true]
    rw [lookupKey_updateRates]
    rfl
  · rw [hrates]
    simp only [List.isEmpty_nil, Bool.not_true]
    rw [lookupKey_updateRates]
    simp
  · rw [hdw]
    simp only [List.isEmpty_nil, if_true]
    exact lookupKey_setKey_self _ _ _
  · exact max_le hrange (by linarith)

/-- C9 witness: a refused connection on the query `"math"` against the
fresh strategy. -/
theorem networkFailure_flow_witness :
    perform_search (Except.error "connection refused") = []
    ∧ ((lookupKey (analyze_response initStrategy "math"
          (perform_search (Except.error "connection refused"))).fst.query_success_rates
          (categorizeQuery "math")).getD ⟨0, 0⟩).total
        = ((lookupKey initStrategy.query_success_rates (categorizeQuery "math")).getD
            ⟨0, 0⟩).total + 1
    ∧ ((lookupKey (analyze_response initStrategy "math"
          (perform_search (Except.error "connection refused"))).fst.query_success_rates
          (categorizeQuery "math")).getD ⟨0, 0⟩).success
        = ((lookupKey initStrategy.query_success_rates (categorizeQuery "math")).getD
            ⟨0, 0⟩).success
    ∧ lookupKey (analyze_response initStrategy "math"
          (perform_search (Except.error "connection refused"))).fst.domain_weights
        (identifyDomain "math") = some (max 0.1 ((1 : ℚ) * 0.8))
    ∧ max 0.1 ((1 : ℚ) * 0.8) ≤ 1 :=
  networkFailure_flow "connection refused" initStrategy "math" 1 rfl (by norm_num)

/-- One `generate_next_queries` call either keeps the phase or advances
it one step along the chain. -/
theorem genStep_phase (st : AdaptiveQueryStrategy) (rng : Rng) :
    (genStep st rng).current_phase = st.current_phase
    ∨ (st.current_phase = "domain_exploration"
        ∧ (genStep st rng).current_phase = "pattern_exploration")
    ∨ (st.current_phase = "pattern_exploration"
        ∧ (genStep st rng).current_phase = "optimization") := by
  unfold genStep generate_next_queries
  by_cases h1 : st.current_phase = "domain_exploration"
  · rw [if_pos h1]
    cases hg : domainExplorationQueries st rng with
    | none => left; rfl
    | some qs =>
      by_cases h2 : st.exploration_rounds + 1 ≥ st.max_exploration_rounds
      · right; left
        exact ⟨h1, by simp [h2]⟩
      · left
        simp [h2]
  · rw [if_neg h1]
    by_cases h2 : st.current_phase = "pattern_exploration"
    · rw [if_pos h2]
      cases hg : patternExplorationQueries st rng with
      | none => left; rfl
      | some qs =>
        by_cases h3 : st.exploration_rounds + 1 ≥ st.max_exploration_rounds * 2
        · right; right
          exact ⟨h2, by simp [h3]⟩
        · left
          simp [h3]
    · rw [if_neg h2]
      left
      rfl

/-- One `generate_next_queries` call never decreases the phase rank. -/
theorem genStep_rank_le (st : AdaptiveQueryStrategy) (rng : Rng) :
    phaseRank st.current_phase ≤ phaseRank (genStep st rng).current_phase := by
  rcases genStep_phase st rng with h | ⟨h1, h2⟩ | ⟨h1, h2⟩
  · rw [h]
  · rw [h1, h2]
    decide
  · rw [h1, h2]
    simp [phaseRank]

/-- Once at `optimization`, `generate_next_queries` leaves the phase
there. -/
theorem genStep_optimization (st : AdaptiveQueryStrategy) (rng : Rng)
    (h : st.current_phase = "optimization") :
    (genStep st rng).current_phase = "optimization" := by
  rcases genStep_phase st rng with h2 | ⟨h1, _⟩ | ⟨h1, _⟩
  · rw [h2, h]
  · rw [h] at h1
    exact absurd h1 (by decide)
  · rw [h] at h1
    exact absurd h1 (by decide)

/-- Along a whole call sequence the phase rank never decreases. -/
theorem genFold_rank_le (rngs : List Rng) :
    ∀ st : AdaptiveQueryStrategy,
      phaseRank st.current_phase ≤ phaseRank ((rngs.foldl genStep st).current_phase) := by
  induction rngs with
  | nil => intro st; exact le_refl _
  | cons r rest ih =>
    intro st
    exact le_trans (genStep_rank_le st r) (ih (genStep st r))

/-- C5: the phase is forward-only: every `generate_next_queries` call
keeps the phase or moves it one step along
`domain_exploration → pattern_exploration → optimization`, the rank never
decreases over any call sequence, and `optimization` is terminal. -/
theorem phase_forward_only :
    (∀ (st : AdaptiveQueryStrategy) (rng : Rng),
        phaseRank st.current_phase ≤ phaseRank (genStep st rng).current_phase
        ∧ ((genStep st rng).current_phase = st.current_phase
            ∨ (st.current_phase = "domain_exploration"
                ∧ (genStep st rng).current_phase = "pattern_exploration")
            ∨ (st.current_phase = "pattern_exploration"
                ∧ (genStep st rng).current_phase = "optimization"))
        ∧ (st.current_phase = "optimization" →
            (genStep st rng).current_phase = "optimization"))
    ∧ ∀ (rngs : List Rng) (st : AdaptiveQueryStrategy),
        phaseRank st.current_phase ≤ phaseRank ((rngs.foldl genStep st).current_phase) :=
  ⟨fun st rng =>
    ⟨genStep_rank_le st rng, genStep_phase st rng, genStep_optimization st rng⟩,
   fun rngs st => genFold_rank_le rngs st⟩

/-- C5 witness: one step from the fresh strategy, and the terminal phase
held by `learnedCompoundState`. -/
theorem phase_forward_only_witness :
    phaseRank initStrategy.current_phase
        ≤ phaseRank (genStep initStrategy rng0).current_phase
    ∧ (genStep learnedCompoundState rng0).current_phase = "optimization" :=
  ⟨(phase_forward_only.1 initStrategy rng0).1,
   (phase_forward_only.1 learnedCompoundState rng0).2.2 rfl⟩

/-- The learned-pattern record left by an `analyze_response` call on an
empty result list: only `ineffective_terms` changes, to the union with
the cleaned query terms net of `effective_terms`. -/
theorem analyzeResponse_failure_learned (st : AdaptiveQueryStrategy) (q : String) :
    (analyze_response st q []).fst.learned_patterns
      = { st.learned_patterns with
            ineffective_terms :=
              diffTerms
                (unionTerms st.learned_patterns.ineffective_terms
                  ((pySplit q).filter
                    (fun t => pyIsAlnum t
                      && decide (lowerStr t ∉ (["and", "or", "not"] : List String)))))
                st.learned_patterns.effective_terms } := by
  cases hlk : lookupKey st.domain_weights (identifyDomain q) with
  | none => simp [analyze_response, hlk]
  | some w => simp [analyze_response, hlk]

/-- Membership in a set difference. -/
theorem mem_diffTerms {l remove : List String} {x : String} :
    x ∈ diffTerms l remove ↔ x ∈ l ∧ x ∉ remove := by
  simp [diffTerms, List.mem_filter]

/-- C6 counterexample: from the fresh strategy, the reachable two-call
sequence `analyze_response("math", [])` (failure) then
`analyze_response("math", [{"title": "math guide", "score": 1}])`
(success) — both calls completing normally — leaves `"math"` in
`effective_terms` and in `ineffective_terms` at once: the success path
adds terms to `effective_terms` without removing them from
`ineffective_terms`. -/
theorem effective_ineffective_overlap :
    (analyze_response initStrategy "math" []).snd = false
    ∧ (analyze_response (analyze_response initStrategy "math" []).fst "math"
        [{ title := "math guide", score := some 1 }]).snd = false
    ∧ "math" ∈ overlapState.learned_patterns.effective_terms
    ∧ "math" ∈ overlapState.learned_patterns.ineffective_terms := by
  refine ⟨by decide, by decide, ?_, ?_⟩
  · norm_num [overlapState, analyze_response, successStep, unionTerms, insertTerm]
    decide
  · norm_num [overlapState, analyze_response, successStep, unionTerms, insertTerm]
    decide

/-- C6 (amended): after every `analyze_response` call whose result list
is empty, `effective_terms` and `ineffective_terms` are disjoint — the
failure branch subtracts `effective_terms` from the updated
`ineffective_terms`; a success call, however, can re-add an ineffective
term to `effective_terms` (see the counterexample), so disjointness after
arbitrary calls fails. -/
theorem failure_call_disjoint (st : AdaptiveQueryStrategy) (q t : String)
    (h : t ∈ (analyze_response st q []).fst.learned_patterns.effective_terms) :
    t ∉ (analyze_response st q []).fst.learned_patterns.ineffective_terms := by
  rw [analyzeResponse_failure_learned] at h ⊢
  intro hmem
  exact (mem_diffTerms.mp hmem).2 h

/-- C6 amended-claim witness: a failure call on a state whose
`effective_terms` already holds `"math"`. -/
theorem failure_call_disjoint_witness :
    "math" ∈ (analyze_response seededState "calculus" []).fst.learned_patterns.effective_terms
    ∧ "math" ∉ (analyze_response seededState "calculus" []).fst.learned_patterns.ineffective_terms :=
  ⟨by decide, failure_call_disjoint seededState "calculus" "math" (by decide)⟩

/-- A successful catalog lookup certifies a catalog key. -/
theorem lookupKey_domains_mem {d : String} {terms : List String}
    (h : lookupKey domains d = some terms) : d ∈ catalogKeys :=
  List.mem_map_of_mem Prod.fst (mem_of_lookupKey h)

/-- Whatever list `buildDomainQueries` returns has one entry per selected
domain, each entry's domain being a catalog key. -/
theorem buildDomainQueries_sound (tp : ℕ → ℕ) :
    ∀ (sel : List String) (i : ℕ) (qs : List GenQuery),
      buildDomainQueries tp sel i = some qs →
      qs.length = sel.length ∧ ∀ g ∈ qs, g.domain ∈ catalogKeys := by
  intro sel
  induction sel with
  | nil =>
    intro i qs h
    simp only [buildDomainQueries, Option.some.injEq] at h
    subst h
    simp
  | cons d rest ih =>
    intro i qs h
    simp only [buildDomainQueries] at h
    cases hlk : lookupKey domains d with
    | none => simp [hlk] at h
    | some terms =>
      simp only [hlk] at h
      cases hc : randChoice terms (tp i) with
      | none => simp [hc] at h
      | some term =>
        simp only [hc] at h
        cases hb : buildDomainQueries tp rest (i + 1) with
        | none => simp [hb] at h
        | some qs2 =>
          simp only [hb, Option.some.injEq] at h
          subst h
          obtain ⟨hlen, hdom⟩ := ih (i + 1) qs2 hb
          refine ⟨by simp [hlen], ?_⟩
          intro g hg
          rcases List.mem_cons.mp hg with h1 | h1
          · rw [h1]
            exact lookupKey_domains_mem hlk
          · exact hdom g h1

/-- Same soundness for the `pattern_exploration` generator. -/
theorem buildPatternQueries_sound (rng : Rng) :
    ∀ (sel : List String) (i : ℕ) (qs : List GenQuery),
      buildPatternQueries rng sel i = some qs →
      qs.length = sel.length ∧ ∀ g ∈ qs, g.domain ∈ catalogKeys := by
  intro sel
  induction sel with
  | nil =>
    intro i qs h
    simp only [buildPatternQueries, Option.some.injEq] at h
    subst h
    simp
  | cons d rest ih =>
    intro i qs h
    simp only [buildPatternQueries] at h
    cases hlk : lookupKey domains d with
    | none => simp [hlk] at h
    | some terms =>
      simp only [hlk] at h
      cases hc : randChoice terms (rng.termPick i) with
      | none => simp [hc] at h
      | some term =>
        simp only [hc] at h
        cases hp : randChoice queryPatternNames (rng.patternPick i) with
        | none => simp [hp] at h
        | some ptype =>
          simp only [hp] at h
          cases ha : applyPattern ptype term (rng.innerPick i) with
          | none => simp [ha] at h
          | some q =>
            simp only [ha] at h
            cases hb : buildPatternQueries rng rest (i + 1) with
            | none => simp [hb] at h
            | some qs2 =>
              simp only [hb, Option.some.injEq] at h
              subst h
              obtain ⟨hlen, hdom⟩ := ih (i + 1) qs2 hb
              refine ⟨by simp [hlen], ?_⟩
              intro g hg
              rcases List.mem_cons.mp hg with h1 | h1
              · rw [h1]
                exact lookupKey_domains_mem hlk
              · exact hdom g h1

/-- Same soundness for the `optimization` generator. -/
theorem buildOptimizedQueries_sound (rng : Rng) (patterns : List String) :
    ∀ (sel : List String) (i : ℕ) (qs : List GenQuery),
      buildOptimizedQueries rng patterns sel i = some qs →
      qs.length = sel.length ∧ ∀ g ∈ qs, g.domain ∈ catalogKeys := by
  intro sel
  induction sel with
  | nil =>
    intro i qs h
    simp only [buildOptimizedQueries, Option.some.injEq] at h
    subst h
    simp
  | cons d rest ih =>
    intro i qs h
    simp only [buildOptimizedQueries] at h
    cases hp : randChoice patterns (rng.patternPick i) with
    | none => simp [hp] at h
    | some ptype =>
      simp only [hp] at h
      cases hlk : lookupKey domains d with
      | none => simp [hlk] at h
      | some terms =>
        simp only [hlk] at h
        cases hc : randChoice terms (rng.termPick i) with
        | none => simp [hc] at h
        | some term =>
          simp only [hc] at h
          cases ha : applyPattern ptype term (rng.innerPick i) with
          | none => simp [ha] at h
          | some q =>
            simp only [ha] at h
            cases hb : buildOptimizedQueries rng patterns rest (i + 1) with
            | none => simp [hb] at h
            | some qs2 =>
              simp only [hb, Option.some.injEq] at h
              subst h
              obtain ⟨hlen, hdom⟩ := ih (i + 1) qs2 hb
              refine ⟨by simp [hlen], ?_⟩
              intro g hg
              rcases List.mem_cons.mp hg with h1 | h1
              · rw [h1]
                exact lookupKey_domains_mem hlk
              · exact hdom g h1

/-- When the fill loop returns, its selection has at least 3 domains. -/
theorem fillLoop_length (fills : ℕ → ℕ) :
    ∀ (fuel : ℕ) (sel : List String) (j : ℕ) (out : List String),
      fillLoop fills fuel sel j = some out → 3 ≤ out.length := by
  intro fuel
  induction fuel with
  | zero =>
    intro sel j out h
    simp only [fillLoop] at h
    by_cases hs : sel.length ≥ 3
    · rw [if_pos hs, Option.some.injEq] at h
      subst h
      exact hs
    · rw [if_neg hs] at h
      simp at h
  | succ f ih =>
    intro sel j out h
    simp only [fillLoop] at h
    by_cases hs : sel.length ≥ 3
    · rw [if_pos hs, Option.some.injEq] at h
      subst h
      exact hs
    · rw [if_neg hs] at h
      cases hc : randChoice catalogKeys (fills j) with
      | none => simp [hc] at h
      | some d =>
        simp only [hc] at h
        by_cases hd : d ∈ sel
        · rw [if_pos hd] at h
          exact ih sel (j + 1) out h
        · rw [if_neg hd] at h
          exact ih (sel ++ [d]) (j + 1) out h

/-- A sample of a positive count from a non-empty population is
non-empty. -/
theorem sampleK_ne_nil {α : Type} [DecidableEq α] (pick : ℕ → ℕ) (l : List α)
    (k i : ℕ) (hl : l ≠ []) (hk : k ≠ 0) : sampleK pick l k i ≠ [] := by
  cases k with
  | zero => exact absurd rfl hk
  | succ k =>
    have he : l.isEmpty = false := by
      cases l with
      | nil => exact absurd rfl hl
      | cons a rest => rfl
    have hlen : 0 < l.length := by
      cases l with
      | nil => exact absurd rfl hl
      | cons a rest => exact Nat.succ_pos _
    have hj : pick i % l.length < l.length := Nat.mod_lt _ hlen
    simp only [sampleK, he, Bool.false_eq_true, if_false]
    rw [List.get?_eq_get hj]
    simp

/-- C1 counterexample: `generate_next_queries` does not return a list at
all on two states: in `pattern_exploration` with
`successful_domains = {"general"}` (the record a successful
catalog-unmatched query leaves behind before its `KeyError`), looking
`"general"` up in the catalog raises; in `optimization` with
`successful_patterns = ["compound"]` (the label a high-scoring
`"math and calculus"` query records), looking `"compound"` up in
`query_patterns` raises. So the claim fails over the full learned-pattern
state space. -/
theorem generateNextQueries_raises :
    (generate_next_queries generalSuccessState rng0).fst = none
    ∧ (generate_next_queries learnedCompoundState rng0).fst = none := by
  constructor
  · decide
  · decide

/-- C1 (amended): whenever `generate_next_queries` does return a list
(it can instead raise `KeyError` in the two later phases, and its
duplicate-retry loop is not guaranteed to terminate), that list is
non-empty and every entry's `domain` is a key of the static catalog. -/
theorem generateNextQueries_sound (st : AdaptiveQueryStrategy) (rng : Rng)
    (l : List GenQuery) (h : (generate_next_queries st rng).fst = some l) :
    l ≠ [] ∧ ∀ g ∈ l, g.domain ∈ catalogKeys := by
  unfold generate_next_queries at h
  by_cases h1 : st.current_phase = "domain_exploration"
  · rw [if_pos h1] at h
    cases hg : domainExplorationQueries st rng with
    | none => simp [hg] at h
    | some qs =>
      simp only [hg, Option.some.injEq] at h
      subst h
      unfold domainExplorationQueries at hg
      cases hf : fillLoop rng.fills rng.fuel
          (weightedSelectAux rng.coins (sortDesc st.domain_weights) 0 []) 0 with
      | none => simp [hf] at hg
      | some sel3 =>
        simp only [hf] at hg
        obtain ⟨hlen, hdom⟩ := buildDomainQueries_sound rng.termPick sel3 0 qs hg
        have h3 := fillLoop_length rng.fills rng.fuel _ 0 sel3 hf
        refine ⟨?_, hdom⟩
        intro hnil
        rw [hnil] at hlen
        simp at hlen
        omega
  · rw [if_neg h1] at h
    by_cases h2 : st.current_phase = "pattern_exploration"
    · rw [if_pos h2] at h
      cases hg : patternExplorationQueries st rng with
      | none => simp [hg] at h
      | some qs =>
        simp only [hg, Option.some.injEq] at h
        subst h
        unfold patternExplorationQueries at hg
        obtain ⟨hlen, hdom⟩ := buildPatternQueries_sound rng _ 0 qs hg
        refine ⟨?_, hdom⟩
        have hsd : (if st.learned_patterns.successful_domains.isEmpty then catalogKeys
            else st.learned_patterns.successful_domains) ≠ [] := by
          by_cases he : st.learned_patterns.successful_domains.isEmpty = true
          · rw [if_pos he]
            decide
          · rw [if_neg he]
            intro hnil
            apply he
            rw [hnil]
            rfl
        have hk : min 2 (if st.learned_patterns.successful_domains.isEmpty then catalogKeys
            else st.learned_patterns.successful_domains).length ≠ 0 := by
          have := List.length_pos.mpr hsd
          omega
        have hchosen := sampleK_ne_nil rng.samplePick _ _ 0 hsd hk
        intro hnil
        rw [hnil] at hlen
        exact hchosen (List.length_eq_zero.mp hlen.symm)
    · rw [if_neg h2] at h
      have hg : optimizedQueries st rng = some l := h
      unfold optimizedQueries at hg
      obtain ⟨hlen, hdom⟩ := buildOptimizedQueries_sound rng _ _ 0 l hg
      refine ⟨?_, hdom⟩
      have hsd : (if st.learned_patterns.successful_domains.isEmpty then catalogKeys
          else st.learned_patterns.successful_domains) ≠ [] := by
        by_cases he : st.learned_patterns.successful_domains.isEmpty = true
        · rw [if_pos he]
          decide
        · rw [if_neg he]
          intro hnil
          apply he
          rw [hnil]
          rfl
      have hk : min 2 (if st.learned_patterns.successful_domains.isEmpty then catalogKeys
          else st.learned_patterns.successful_domains).length ≠ 0 := by
        have := List.length_pos.mpr hsd
        omega
      have hchosen := sampleK_ne_nil rng.samplePick _ _ 0 hsd hk
      intro hnil
      rw [hnil] at hlen
      exact hchosen (List.length_eq_zero.mp hlen.symm)

/-- C1 amended-claim witness: the fresh strategy moved to
`pattern_exploration`, where the all-zero oracle produces two
catalog-domain queries. -/
theorem generateNextQueries_sound_witness :
    (generate_next_queries patExplState rng0).fst = some patExplQueries
    ∧ (patExplQueries ≠ [] ∧ ∀ g ∈ patExplQueries, g.domain ∈ catalogKeys) :=
  ⟨by decide, generateNextQueries_sound patExplState rng0 patExplQueries (by decide)⟩

/-- C10 witness: a database holding one `"unknown"` sample. -/
theorem analyzePatterns_complementary_witness :
    ([⟨"unknown", 0⟩] : List Sample) ≠ []
    ∧ ((analyze_patterns [⟨"unknown", 0⟩]).fuzzy_match_ratio
          + (analyze_patterns [⟨"unknown", 0⟩]).exact_match_ratio = 1
      ∧ (analyze_patterns [⟨"unknown", 0⟩]).exact_match_ratio
          = ((([⟨"unknown", 0⟩] : List Sample).filter
                (fun s => !decide (s.matching_type = "fuzzy"))).length : ℚ)
              / ([⟨"unknown", 0⟩] : List Sample).length
      ∧ calculate_confidence [⟨"unknown", 0⟩] = 0.6) :=
  ⟨by simp, analyzePatterns_complementary [⟨"unknown", 0⟩] (by simp)⟩

end SearchReverser
